import Mathlib

/-!
Verification development for the metrics-instrumentation core of a
request-serving platform: a label-dimensioned Prometheus metric registry with
cardinality pre-materialization (`pbsmetrics/prometheus/prometheus.go`) and a
multi-backend fan-out engine (`pbsmetrics/config/metrics.go`).

Modelling conventions:
- A Go `prometheus.Labels` value (`map[string]string`) is represented as an
  association list kept sorted by key, so that equality of represented values
  coincides with extensional equality of the underlying map.
- Go `float64` quantities (bucket edges, counter values) are represented as
  exact rationals.
- A Go panic inside a metrics backend is represented as `Except.error`.
-/

set_option maxHeartbeats 1000000

/-! ## Label assignments (Go `prometheus.Labels`) -/

/-- Lexicographic comparison of character lists by code point, used as the
canonical key order of the label-map representation. -/
def charListLt : List Char → List Char → Bool
  | [], [] => false
  | [], _ :: _ => true
  | _ :: _, [] => false
  | a :: as, b :: bs =>
    if a.toNat < b.toNat then true
    else if b.toNat < a.toNat then false
    else charListLt as bs

/-- Canonical key order on strings. -/
def strLt (a b : String) : Bool := charListLt a.data b.data

/-- A label assignment: the Go `prometheus.Labels` map, as a key-sorted
association list. -/
abbrev LMap := List (String × String)

/-- Map update `label[field] = v`, keeping the canonical key order. -/
def insertKV : LMap → String → String → LMap
  | [], k, v => [(k, v)]
  | (k', v') :: rest, k, v =>
    if strLt k k' then (k, v) :: (k', v') :: rest
    else if k = k' then (k, v) :: rest
    else (k', v') :: insertKV rest k v

/-- Map lookup `label[field]`. -/
def findKV : LMap → String → Option String
  | [], _ => none
  | (k', v') :: rest, k => if k = k' then some v' else findKV rest k

/-- The keys present in a label assignment. -/
def keysOf (m : LMap) : List String := m.map Prod.fst

/-- Removing one key from a label assignment. -/
def eraseKV (m : LMap) (k : String) : LMap := m.filter (fun p => !(p.1 == k))

/-! ## Label name constants (`prometheus.go` const block) -/

def requestTypeLabel : String := "request_type"
def demandSourceLabel : String := "demand_source"
def browserLabel : String := "browser"
def cookieLabel : String := "cookie"
def responseStatusLabel : String := "response_status"
def adapterLabel : String := "adapter"
def adapterBidLabel : String := "adapter_bid"
def markupTypeLabel : String := "markup_type"
def bidTypeLabel : String := "bid_type"
def adapterErrLabel : String := "adapter_error"
def cacheResultLabel : String := "cache_result"
def gdprBlockedLabel : String := "gdpr_blocked"
def bannerLabel : String := "banner"
def videoLabel : String := "video"
def audioLabel : String := "audio"
def nativeLabel : String := "native"

/-! ## Event context types (`pbsmetrics` label structs, as accessed here) -/

/-- Request-scoped label context (`pbsmetrics.Labels`). The struct is declared
in the `pbsmetrics` package; the fields are the ones this code reads. -/
structure Labels where
  Source : String
  RType : String
  PubID : String
  Browser : String
  CookieFlag : String
  RequestStatus : String
deriving DecidableEq

/-- Adapter-scoped label context (`pbsmetrics.AdapterLabels`); `AdapterErrors`
is the key set of the Go `map[AdapterError]struct` field. -/
structure AdapterLabels where
  Source : String
  RType : String
  PubID : String
  Browser : String
  CookieFlag : String
  Adapter : String
  AdapterBids : String
  AdapterErrors : List String
deriving DecidableEq

/-- Impression-type flags (`pbsmetrics.ImpLabels`). -/
structure ImpLabels where
  BannerImps : Bool
  VideoImps : Bool
  AudioImps : Bool
  NativeImps : Bool
deriving DecidableEq

/-! ## Label resolution (pure projections, `prometheus.go`) -/

/-- Embeds `resolveLabels`. -/
def resolveLabels (labels : Labels) : LMap :=
  insertKV (insertKV (insertKV (insertKV (insertKV []
    demandSourceLabel labels.Source)
    requestTypeLabel labels.RType)
    browserLabel labels.Browser)
    cookieLabel labels.CookieFlag)
    responseStatusLabel labels.RequestStatus

/-- Embeds `resolveAdapterLabels`. -/
def resolveAdapterLabels (labels : AdapterLabels) : LMap :=
  insertKV (insertKV (insertKV (insertKV (insertKV (insertKV []
    demandSourceLabel labels.Source)
    requestTypeLabel labels.RType)
    browserLabel labels.Browser)
    cookieLabel labels.CookieFlag)
    adapterBidLabel labels.AdapterBids)
    adapterLabel labels.Adapter

/-- Embeds `resolveBidLabels`: the map literal sets `markup_type` to
`unknown`, then overwrites it with `adm` when `hasAdm` holds. -/
def resolveBidLabels (labels : AdapterLabels) (bidType : String) (hasAdm : Bool) : LMap :=
  let bidLabels :=
    insertKV (insertKV (insertKV (insertKV (insertKV (insertKV (insertKV (insertKV []
      demandSourceLabel labels.Source)
      requestTypeLabel labels.RType)
      browserLabel labels.Browser)
      cookieLabel labels.CookieFlag)
      adapterBidLabel labels.AdapterBids)
      adapterLabel labels.Adapter)
      bidTypeLabel bidType)
      markupTypeLabel "unknown"
  if hasAdm then insertKV bidLabels markupTypeLabel "adm" else bidLabels

/-- Embeds `resolveAdapterErrorLabels`. -/
def resolveAdapterErrorLabels (labels : AdapterLabels) (errorType : String) : LMap :=
  insertKV (insertKV (insertKV (insertKV (insertKV (insertKV []
    demandSourceLabel labels.Source)
    requestTypeLabel labels.RType)
    browserLabel labels.Browser)
    cookieLabel labels.CookieFlag)
    adapterErrLabel errorType)
    adapterLabel labels.Adapter

/-- Embeds `resolveImpLabels`: defaults every impression-type label to `no`,
then flips each to `yes` when the corresponding flag is set. -/
def resolveImpLabels (labels : ImpLabels) : LMap :=
  let impLabels :=
    insertKV (insertKV (insertKV (insertKV []
      bannerLabel "no") videoLabel "no") audioLabel "no") nativeLabel "no"
  let impLabels := if labels.BannerImps then insertKV impLabels bannerLabel "yes" else impLabels
  let impLabels := if labels.VideoImps then insertKV impLabels videoLabel "yes" else impLabels
  let impLabels := if labels.AudioImps then insertKV impLabels audioLabel "yes" else impLabels
  if labels.NativeImps then insertKV impLabels nativeLabel "yes" else impLabels

/-! ## Cartesian pre-materialization helpers (`prometheus.go`) -/

/-- Embeds `copyLabel`: a deep copy of a label map; on immutable represented
values the copy is the value itself. -/
def copyLabel (label : LMap) : LMap := label

/-- Embeds `addToLabel`: one new label map per value, each extending a copy of
the base map at `field`. -/
def addToLabel (label : LMap) (field : String) (values : List String) : List LMap :=
  values.map (fun v => insertKV (copyLabel label) field v)

/-- Embeds `addDimension`: expand a slice of label maps by a new dimension;
an empty slice is treated as the singleton empty assignment. -/
def addDimension (labels : List LMap) (field : String) (values : List String) : List LMap :=
  match labels with
  | [] => addToLabel [] field values
  | _ :: _ => labels.flatMap (fun l => addToLabel l field values)

/-- A dimension list folded through `addDimension` starting (as the code does
at every call site) from the empty slice of labels. -/
def cartesianDims (dims : List (String × List String)) : List LMap :=
  dims.foldl (fun ls d => addDimension ls d.1 d.2) []

/-! ## Lemmas on the enumeration helpers -/

/-! ## Backend-resident accumulators (`prometheus.CounterVec` etc.) -/

/-- A counter vector: the set of materialized series and their values. -/
structure CounterVec where
  series : List LMap
  counts : LMap → ℚ

/-- A histogram vector: bucket edges, materialized series, observations. -/
structure HistogramVec where
  buckets : List ℚ
  series : List LMap
  observations : LMap → List ℚ

/-- The `With` lookup on a counter vector: create-if-absent of one series. -/
def CounterVec.withLabels (cv : CounterVec) (l : LMap) : CounterVec :=
  if l ∈ cv.series then cv else { cv with series := cv.series ++ [l] }

/-- `With(l).Inc()` on a counter vector. -/
def CounterVec.incAt (cv : CounterVec) (l : LMap) : CounterVec :=
  let cv' := cv.withLabels l
  { cv' with counts := fun k => if k = l then cv'.counts k + 1 else cv'.counts k }

/-- `With(l).Add(x)` on a counter vector. -/
def CounterVec.addAt (cv : CounterVec) (l : LMap) (x : ℚ) : CounterVec :=
  let cv' := cv.withLabels l
  { cv' with counts := fun k => if k = l then cv'.counts k + x else cv'.counts k }

/-- The `With` lookup on a histogram vector: create-if-absent of one series. -/
def HistogramVec.withLabels (hv : HistogramVec) (l : LMap) : HistogramVec :=
  if l ∈ hv.series then hv else { hv with series := hv.series ++ [l] }

/-- `With(l).Observe(x)` on a histogram vector. -/
def HistogramVec.observeAt (hv : HistogramVec) (l : LMap) (x : ℚ) : HistogramVec :=
  let hv' := hv.withLabels l
  { hv' with observations :=
      fun k => if k = l then hv'.observations k ++ [x] else hv'.observations k }

/-- The pre-materialization loop `for _, l := range labels ... .With(l)`. -/
def touchAllC (cv : CounterVec) (ls : List LMap) : CounterVec :=
  ls.foldl CounterVec.withLabels cv

/-- The pre-materialization loop over a histogram vector. -/
def touchAllH (hv : HistogramVec) (ls : List LMap) : HistogramVec :=
  ls.foldl HistogramVec.withLabels hv

def emptyCounterVec : CounterVec := ⟨[], fun _ => 0⟩

def emptyHistogramVec (buckets : List ℚ) : HistogramVec := ⟨buckets, [], fun _ => []⟩

/-! ## Label domain catalog -/

/-- Modelled from the spec: the Label Domain Catalog. The concrete closed
domains (`pbsmetrics.DemandTypes`, `RequestTypes`, `BrowserTypes`,
`CookieTypes`, `RequestStatuses`, `AdapterBids`, `AdapterErrors`,
`CacheResults`, `openrtb_ext.BidderList`, `BidTypes`) live in packages not
included in the sample; each is an opaque finite list of string tokens, and
the development is parametric in their contents. -/
structure DomainCatalog where
  demandTypes : List String
  requestTypes : List String
  browserTypes : List String
  cookieTypes : List String
  requestStatuses : List String
  adapters : List String
  adapterBids : List String
  bidTypes : List String
  adapterErrors : List String
  cacheResults : List String

/-! ## Bucket construction (`NewMetrics`) -/

/-- The vendored `prometheus.LinearBuckets`: `count` edges starting at
`start`, each later edge one `width` further; `float64` modelled as exact
rationals. -/
def linearBuckets (start width : ℚ) : Nat → List ℚ
  | 0 => []
  | n + 1 => start :: linearBuckets (start + width) width n

/-- The `timerBuckets` local of `NewMetrics`: 20 linear edges from 0.05 plus
the six explicit upper edges. -/
def timerBuckets : List ℚ :=
  linearBuckets 0.05 0.05 20 ++ [1.5, 2.0, 3.0, 5.0, 20.0, 50.0]

/-- The bucket list passed for the `adapter_prices` family. -/
def priceBuckets : List ℚ := linearBuckets 0.1 0.1 200

/-! ## Pre-materialized label sets (the locals of `initializeTimeSeries`) -/

def connErrorLabelsList : List LMap :=
  addDimension [] "ErrorType" ["accept_error", "close_error"]

/-- The saved `adapterLabels` slice: the four dimensions shared by the
standard and adapter families. -/
def adapterBaseLabels (cat : DomainCatalog) : List LMap :=
  addDimension (addDimension (addDimension (addDimension []
    demandSourceLabel cat.demandTypes)
    requestTypeLabel cat.requestTypes)
    browserLabel cat.browserTypes)
    cookieLabel cat.cookieTypes

def standardLabelsList (cat : DomainCatalog) : List LMap :=
  addDimension (adapterBaseLabels cat) responseStatusLabel cat.requestStatuses

/-- The saved `errorLabels` slice: the adapter dimensions before `adapter_bid`. -/
def errorBaseLabels (cat : DomainCatalog) : List LMap :=
  addDimension (adapterBaseLabels cat) adapterLabel cat.adapters

def adapterStatusLabels (cat : DomainCatalog) : List LMap :=
  addDimension (errorBaseLabels cat) adapterBidLabel cat.adapterBids

def bidLabelsList (cat : DomainCatalog) : List LMap :=
  addDimension (addDimension (adapterStatusLabels cat)
    bidTypeLabel cat.bidTypes) markupTypeLabel ["unknown", "adm"]

def adapterErrorLabelsList (cat : DomainCatalog) : List LMap :=
  addDimension (errorBaseLabels cat) adapterErrLabel cat.adapterErrors

def cookieSyncLabelsList (cat : DomainCatalog) : List LMap :=
  addDimension (addDimension [] adapterLabel cat.adapters)
    gdprBlockedLabel ["true", "false"]

def cacheLabelsList (cat : DomainCatalog) : List LMap :=
  addDimension [] "cache_result" cat.cacheResults

def impTypeLabelsList : List LMap :=
  addDimension (addDimension (addDimension (addDimension []
    bannerLabel ["yes", "no"])
    videoLabel ["yes", "no"])
    audioLabel ["yes", "no"])
    nativeLabel ["yes", "no"]

/-! ## The Prometheus metrics engine (`prometheus.go`) -/

/-- The relevant fields of `config.PrometheusMetrics`. -/
structure PrometheusConfig where
  Port : Nat
  Namespace : String
  Subsystem : String

/-- The `Metrics` struct: the registry is modelled by the list of registered
(fully qualified) family names, in registration order. -/
structure Metrics where
  registryNames : List String
  connCounter : ℚ
  connError : CounterVec
  imps : CounterVec
  legacyImps : CounterVec
  requests : CounterVec
  reqTimer : HistogramVec
  adaptRequests : CounterVec
  adaptTimer : HistogramVec
  adaptBids : CounterVec
  adaptPrices : HistogramVec
  adaptErrors : CounterVec
  adaptPanics : CounterVec
  cookieSync : ℚ
  adaptCookieSync : CounterVec
  userID : CounterVec
  storedReqCacheResult : CounterVec
  storedImpCacheResult : CounterVec

/-- The vendored `prometheus.BuildFQName`: joins the non-empty parts of
namespace, subsystem and name with underscores. -/
def buildFQName (ns sub name : String) : String :=
  if name = "" then ""
  else if ns ≠ "" ∧ sub ≠ "" then ns ++ "_" ++ sub ++ "_" ++ name
  else if ns ≠ "" then ns ++ "_" ++ name
  else if sub ≠ "" then sub ++ "_" ++ name
  else name

/-- Embeds `initializeTimeSeries`: pre-create every label combination on
every vector family (the `_ = m.x.With(l)` loops). -/
def initializeTimeSeries (cat : DomainCatalog) (m : Metrics) : Metrics :=
  { m with
    connError := touchAllC m.connError connErrorLabelsList,
    requests := touchAllC m.requests (standardLabelsList cat),
    reqTimer := touchAllH m.reqTimer (standardLabelsList cat),
    adaptRequests := touchAllC m.adaptRequests (adapterStatusLabels cat),
    adaptTimer := touchAllH m.adaptTimer (adapterStatusLabels cat),
    adaptPrices := touchAllH m.adaptPrices (adapterStatusLabels cat),
    adaptPanics := touchAllC m.adaptPanics (adapterStatusLabels cat),
    adaptBids := touchAllC m.adaptBids (bidLabelsList cat),
    adaptErrors := touchAllC m.adaptErrors (adapterErrorLabelsList cat),
    adaptCookieSync := touchAllC m.adaptCookieSync (cookieSyncLabelsList cat),
    storedImpCacheResult := touchAllC m.storedImpCacheResult (cacheLabelsList cat),
    storedReqCacheResult := touchAllC m.storedReqCacheResult (cacheLabelsList cat),
    imps := touchAllC m.imps impTypeLabelsList }

/-- Embeds `NewMetrics` (`prometheus.go`): a fresh registry, every family
constructed with the namespace and subsystem prefix applied and registered in
source order, then time-series pre-materialization. The sampled definition
takes no disabled-family argument: every declared family is always built. -/
def newMetrics (cfg : PrometheusConfig) (cat : DomainCatalog) : Metrics :=
  let fq := fun name => buildFQName cfg.Namespace cfg.Subsystem name
  let metrics : Metrics := {
    registryNames := [fq "active_connections", fq "active_connections_total",
      fq "imps_requested", fq "legacy_imps_requested", fq "requests_total",
      fq "request_time_seconds", fq "adapter_requests_total",
      fq "adapter_panics_total", fq "adapter_time_seconds",
      fq "adapter_bids_received_total", fq "stored_request_cache_performance",
      fq "stored_imp_cache_performance", fq "adapter_prices",
      fq "adapter_errors_total", fq "cookie_sync_requests_total",
      fq "cookie_sync_returns", fq "setuid_calls"],
    connCounter := 0,
    connError := emptyCounterVec,
    imps := emptyCounterVec,
    legacyImps := emptyCounterVec,
    requests := emptyCounterVec,
    reqTimer := emptyHistogramVec timerBuckets,
    adaptRequests := emptyCounterVec,
    adaptTimer := emptyHistogramVec timerBuckets,
    adaptBids := emptyCounterVec,
    adaptPrices := emptyHistogramVec priceBuckets,
    adaptErrors := emptyCounterVec,
    adaptPanics := emptyCounterVec,
    cookieSync := 0,
    adaptCookieSync := emptyCounterVec,
    userID := emptyCounterVec,
    storedReqCacheResult := emptyCounterVec,
    storedImpCacheResult := emptyCounterVec }
  initializeTimeSeries cat metrics

/-! ## Recording operations (`prometheus.go`) -/

/-- Embeds `Metrics.RecordRequest`. -/
def Metrics.recordRequest (m : Metrics) (labels : Labels) : Metrics :=
  { m with requests := m.requests.incAt (resolveLabels labels) }

/-- Embeds `Metrics.RecordImps`. -/
def Metrics.recordImps (m : Metrics) (implabels : ImpLabels) : Metrics :=
  { m with imps := m.imps.incAt (resolveImpLabels implabels) }

/-- Embeds `Metrics.RecordLegacyImps`. -/
def Metrics.recordLegacyImps (m : Metrics) (labels : Labels) (numImps : Int) : Metrics :=
  { m with legacyImps := m.legacyImps.addAt (resolveLabels labels) (numImps : ℚ) }

/-- Embeds `Metrics.RecordRequestTime`; the Go duration is in nanoseconds and
is divided by `time.Second`. -/
def Metrics.recordRequestTime (m : Metrics) (labels : Labels) (length : ℚ) : Metrics :=
  { m with reqTimer := m.reqTimer.observeAt (resolveLabels labels) (length / 1000000000) }

/-- Embeds `Metrics.RecordAdapterPanic`. -/
def Metrics.recordAdapterPanic (m : Metrics) (labels : AdapterLabels) : Metrics :=
  { m with adaptPanics := m.adaptPanics.incAt (resolveAdapterLabels labels) }

/-- Embeds `Metrics.RecordAdapterRequest`: one increment on the adapter
family plus one per distinct error kind in the context. -/
def Metrics.recordAdapterRequest (m : Metrics) (labels : AdapterLabels) : Metrics :=
  let m := { m with adaptRequests := m.adaptRequests.incAt (resolveAdapterLabels labels) }
  labels.AdapterErrors.foldl
    (fun m k =>
      { m with adaptErrors := m.adaptErrors.incAt (resolveAdapterErrorLabels labels k) }) m

/-- Embeds `Metrics.RecordAdapterBidReceived`. -/
def Metrics.recordAdapterBidReceived (m : Metrics) (labels : AdapterLabels)
    (bidType : String) (hasAdm : Bool) : Metrics :=
  { m with adaptBids := m.adaptBids.incAt (resolveBidLabels labels bidType hasAdm) }

/-- Embeds `Metrics.RecordAdapterPrice`. -/
def Metrics.recordAdapterPrice (m : Metrics) (labels : AdapterLabels) (cpm : ℚ) : Metrics :=
  { m with adaptPrices := m.adaptPrices.observeAt (resolveAdapterLabels labels) cpm }

/-- Embeds `Metrics.RecordAdapterTime`. -/
def Metrics.recordAdapterTime (m : Metrics) (labels : AdapterLabels) (length : ℚ) : Metrics :=
  { m with adaptTimer := m.adaptTimer.observeAt (resolveAdapterLabels labels) (length / 1000000000) }

/-- Embeds `Metrics.RecordCookieSync`: the labels argument is never read;
only the dimension-less counter is bumped. -/
def Metrics.recordCookieSync (m : Metrics) (_labels : Labels) : Metrics :=
  { m with cookieSync := m.cookieSync + 1 }

/-- Embeds `Metrics.RecordConnectionAccept`: a successful accept bumps the
gauge; a failed one increments the `accept_error` series of `connError`. -/
def Metrics.recordConnectionAccept (m : Metrics) (success : Bool) : Metrics :=
  if success then { m with connCounter := m.connCounter + 1 }
  else { m with connError := m.connError.incAt (insertKV [] "ErrorType" "accept_error") }

/-- Embeds `Metrics.RecordConnectionClose`: a successful close decrements the
gauge; a failed one increments the `close_error` series of `connError`. -/
def Metrics.recordConnectionClose (m : Metrics) (success : Bool) : Metrics :=
  if success then { m with connCounter := m.connCounter - 1 }
  else { m with connError := m.connError.incAt (insertKV [] "ErrorType" "close_error") }

/-- Embeds `Metrics.RecordAdapterCookieSync`: the adapter label plus the
`gdpr_blocked` label rendered `true` or `false`. -/
def Metrics.recordAdapterCookieSync (m : Metrics) (adapter : String)
    (gdprBlocked : Bool) : Metrics :=
  let labels := insertKV [] adapterLabel adapter
  let labels :=
    if gdprBlocked then insertKV labels gdprBlockedLabel "true"
    else insertKV labels gdprBlockedLabel "false"
  { m with adaptCookieSync := m.adaptCookieSync.incAt labels }

/-- Embeds `Metrics.RecordStoredReqCacheResult`. -/
def Metrics.recordStoredReqCacheResult (m : Metrics) (cacheResult : String)
    (inc : Int) : Metrics :=
  { m with storedReqCacheResult :=
      m.storedReqCacheResult.addAt (insertKV [] cacheResultLabel cacheResult) (inc : ℚ) }

/-- Embeds `Metrics.RecordStoredImpCacheResult`. -/
def Metrics.recordStoredImpCacheResult (m : Metrics) (cacheResult : String)
    (inc : Int) : Metrics :=
  { m with storedImpCacheResult :=
      m.storedImpCacheResult.addAt (insertKV [] cacheResultLabel cacheResult) (inc : ℚ) }

/-! ## Multi-backend fan-out (`config/metrics.go`) -/

/-- Embeds the uniform loop body shared by every `MultiMetricsEngine.Record*`
method (`for _, thisME := range *me ... thisME.Record*(...)`): each backend is
a state together with its update for the event being recorded; updates run
synchronously in list order; `Except.error` models a Go panic escaping a
backend's update, which aborts the loop. The result is every backend's final
state plus the panic, if one escaped to the caller. -/
def multiEngineRecord {σ ε : Type} : List ((σ → Except ε σ) × σ) → List σ × Option ε
  | [] => ([], none)
  | (f, s) :: rest =>
    match f s with
    | Except.ok s' =>
      let r := multiEngineRecord rest
      (s' :: r.1, r.2)
    | Except.error e => (s :: rest.map Prod.snd, some e)

/-! ## Engine construction (`NewMetricsEngine`, `config/metrics.go`) -/

/-- The connection parameters `NewMetricsEngine` inspects. -/
structure EngineConfiguration where
  influxdbHost : String
  prometheusPort : Nat

inductive BackendKind
  | goMetrics
  | prometheusBackend
deriving DecidableEq

/-- The shape of the engine value `NewMetricsEngine` returns. -/
inductive EngineChoice
  | dummyEngine
  | singleEngine (b : BackendKind)
  | multiEngine (bs : List BackendKind)
deriving DecidableEq

/-- Embeds `NewMetricsEngine` (`config/metrics.go`): append the go-metrics
backend when the Influx host is set, then the Prometheus backend when its
port is set, then dispatch on the length of the list exactly as the source's
`len(engineList)` chain does. -/
def newMetricsEngine (cfg : EngineConfiguration) : EngineChoice :=
  let engineList : List BackendKind :=
    (if cfg.influxdbHost ≠ "" then [BackendKind.goMetrics] else []) ++
    (if cfg.prometheusPort ≠ 0 then [BackendKind.prometheusBackend] else [])
  match engineList with
  | [] => EngineChoice.dummyEngine
  | [e] => EngineChoice.singleEngine e
  | es => EngineChoice.multiEngine es

/-- A singleton-domain catalog used to exercise the closure theorem. -/
def catWitness : DomainCatalog :=
  ⟨["web"], ["ortb"], ["chrome"], ["exists"], ["ok"], ["bidderA"], ["bid"],
   ["banner"], ["err"], ["hit"]⟩

def lblWitness : Labels := ⟨"web", "ortb", "", "chrome", "exists", "ok"⟩

def alWitness : AdapterLabels :=
  ⟨"web", "ortb", "", "chrome", "exists", "bidderA", "bid", []⟩

/-! ## Lemmas and claim theorems -/

theorem findKV_insertKV_self (m : LMap) (k v : String) :
    findKV (insertKV m k v) k = some v := by
  induction m with
  | nil => simp [insertKV, findKV]
  | cons p rest ih =>
    obtain ⟨k', v'⟩ := p
    by_cases h1 : strLt k k'
    · simp [insertKV, h1, findKV]
    · by_cases h2 : k = k'
      · simp only [insertKV, if_neg h1, if_pos h2]
        simp [findKV]
      · simp [insertKV, h1, h2, findKV, ih]

theorem eraseKV_insertKV (m : LMap) (k v : String) :
    eraseKV (insertKV m k v) k = eraseKV m k := by
  induction m with
  | nil => simp [insertKV, eraseKV]
  | cons p rest ih =>
    obtain ⟨k', v'⟩ := p
    by_cases h1 : strLt k k'
    · simp [insertKV, h1, eraseKV]
    · by_cases h2 : k = k'
      · subst h2
        simp [insertKV, h1, eraseKV]
      · have hne : (k' == k) = false := by
          simp only [beq_eq_false_iff_ne, ne_eq]
          exact fun h => h2 h.symm
        simp only [insertKV, if_neg h1, if_neg h2, eraseKV, List.filter_cons, hne,
          Bool.not_false, if_pos]
        simp only [eraseKV] at ih
        rw [ih]

theorem eraseKV_eq_self_of_not_mem (m : LMap) (k : String) (h : k ∉ keysOf m) :
    eraseKV m k = m := by
  induction m with
  | nil => rfl
  | cons p rest ih =>
    obtain ⟨k', v'⟩ := p
    simp only [keysOf, List.map_cons, List.mem_cons, not_or] at h
    obtain ⟨h1, h2⟩ := h
    have hne : (k' == k) = false := by
      simp only [beq_eq_false_iff_ne, ne_eq]
      exact fun hh => h1 hh.symm
    simp only [eraseKV, List.filter_cons, hne, Bool.not_false, if_pos]
    simp only [eraseKV] at ih
    rw [ih (by simpa [keysOf] using h2)]

/-- Inserting a fresh key is injective in both the base map and the value. -/
theorem insertKV_inj (m₁ m₂ : LMap) (k v₁ v₂ : String)
    (h₁ : k ∉ keysOf m₁) (h₂ : k ∉ keysOf m₂)
    (heq : insertKV m₁ k v₁ = insertKV m₂ k v₂) : m₁ = m₂ ∧ v₁ = v₂ := by
  constructor
  · have := congrArg (fun m => eraseKV m k) heq
    simp only [eraseKV_insertKV] at this
    rwa [eraseKV_eq_self_of_not_mem m₁ k h₁, eraseKV_eq_self_of_not_mem m₂ k h₂] at this
  · have := congrArg (fun m => findKV m k) heq
    simp only [findKV_insertKV_self] at this
    exact Option.some.inj this

theorem mem_keysOf_insertKV (m : LMap) (k v a : String) :
    a ∈ keysOf (insertKV m k v) ↔ a = k ∨ a ∈ keysOf m := by
  induction m with
  | nil => simp [insertKV, keysOf]
  | cons p rest ih =>
    obtain ⟨k', v'⟩ := p
    by_cases h1 : strLt k k'
    · simp [insertKV, h1, keysOf]
    · by_cases h2 : k = k'
      · simp only [insertKV, if_neg h1, if_pos h2, keysOf, List.map_cons, List.mem_cons]
        rw [← h2]
        tauto
      · simp only [insertKV, if_neg h1, if_neg h2, keysOf, List.map_cons, List.mem_cons]
        simp only [keysOf] at ih
        rw [ih]
        tauto

theorem mem_addToLabel {x l : LMap} {f : String} {vs : List String} :
    x ∈ addToLabel l f vs ↔ ∃ v ∈ vs, x = insertKV l f v := by
  simp only [addToLabel, copyLabel, List.mem_map]
  constructor
  · rintro ⟨v, hv, rfl⟩; exact ⟨v, hv, rfl⟩
  · rintro ⟨v, hv, rfl⟩; exact ⟨v, hv, rfl⟩

theorem addDimension_nil (f : String) (vs : List String) :
    addDimension [] f vs = addToLabel [] f vs := rfl

theorem mem_addDimension_of {l : LMap} {L : List LMap} {f v : String} {vs : List String}
    (hl : l ∈ L) (hv : v ∈ vs) : insertKV l f v ∈ addDimension L f vs := by
  cases L with
  | nil => cases hl
  | cons m ms =>
    simp only [addDimension, List.mem_flatMap]
    exact ⟨l, hl, mem_addToLabel.mpr ⟨v, hv, rfl⟩⟩

theorem mem_addDimension_nil_of {f v : String} {vs : List String} (hv : v ∈ vs) :
    insertKV [] f v ∈ addDimension [] f vs := by
  rw [addDimension_nil]
  exact mem_addToLabel.mpr ⟨v, hv, rfl⟩

/-- Every element of an expanded slice is an extension of a base map (an
element of the input when that was non-empty, the empty map otherwise). -/
theorem mem_addDimension {x : LMap} {L : List LMap} {f : String} {vs : List String}
    (hx : x ∈ addDimension L f vs) :
    ∃ m v, v ∈ vs ∧ x = insertKV m f v ∧ (m = [] ∨ m ∈ L) := by
  cases L with
  | nil =>
    rw [addDimension_nil] at hx
    obtain ⟨v, hv, rfl⟩ := mem_addToLabel.mp hx
    exact ⟨[], v, hv, rfl, Or.inl rfl⟩
  | cons m ms =>
    simp only [addDimension, List.mem_flatMap] at hx
    obtain ⟨b, hb, hx⟩ := hx
    obtain ⟨v, hv, rfl⟩ := mem_addToLabel.mp hx
    exact ⟨b, v, hv, rfl, Or.inr hb⟩

theorem length_addToLabel (l : LMap) (f : String) (vs : List String) :
    (addToLabel l f vs).length = vs.length := by
  simp [addToLabel]

theorem sum_map_const_length {α : Type} (L : List α) (c : Nat) :
    (L.map (fun _ => c)).sum = L.length * c := by
  induction L with
  | nil => simp
  | cons a L ih => simp [ih, Nat.succ_mul, Nat.add_comm]

theorem length_addDimension_cons (m : LMap) (ms : List LMap) (f : String) (vs : List String) :
    (addDimension (m :: ms) f vs).length = (m :: ms).length * vs.length := by
  simp only [addDimension, List.length_flatMap, Function.comp_def, length_addToLabel]
  exact sum_map_const_length (m :: ms) vs.length

theorem addDimension_ne_nil {L : List LMap} {f : String} {vs : List String}
    (hvs : vs ≠ []) : addDimension L f vs ≠ [] := by
  cases L with
  | nil =>
    rw [addDimension_nil]
    simpa [addToLabel] using hvs
  | cons m ms =>
    intro h
    have h0 : (m :: ms).length * vs.length = 0 := by
      rw [← length_addDimension_cons m ms f vs, h, List.length_nil]
    have hv0 : vs.length = 0 := by
      rcases Nat.mul_eq_zero.mp h0 with h' | h'
      · simp at h'
      · exact h'
    exact hvs (List.length_eq_zero.mp hv0)

theorem nodup_addToLabel {l : LMap} {f : String} {vs : List String}
    (hvs : vs.Nodup) (hf : f ∉ keysOf l) : (addToLabel l f vs).Nodup := by
  refine List.Nodup.map_on ?_ hvs
  intro x _ y _ hxy
  exact (insertKV_inj l l f x y hf hf hxy).2

theorem nodup_addDimension {L : List LMap} {f : String} {vs : List String}
    (hL : L.Nodup) (hvs : vs.Nodup) (hf : ∀ m ∈ L, f ∉ keysOf m) :
    (addDimension L f vs).Nodup := by
  cases L with
  | nil => exact nodup_addToLabel hvs (by simp [keysOf])
  | cons m ms =>
    show ((m :: ms).flatMap (fun l => addToLabel l f vs)).Nodup
    rw [List.nodup_flatMap]
    refine ⟨fun x hx => nodup_addToLabel hvs (hf x hx), ?_⟩
    have key : ∀ (M : List LMap), M.Nodup → (∀ b ∈ M, f ∉ keysOf b) →
        M.Pairwise (Function.onFun List.Disjoint (fun l => addToLabel l f vs)) := by
      intro M
      induction M with
      | nil => intro _ _; exact List.Pairwise.nil
      | cons a M ih =>
        intro hnd hks
        rw [List.nodup_cons] at hnd
        refine List.Pairwise.cons ?_ (ih hnd.2 (fun b hb => hks b (List.mem_cons_of_mem a hb)))
        intro b hb
        intro x hxa hxb
        obtain ⟨va, hva, rfl⟩ := mem_addToLabel.mp hxa
        obtain ⟨vb, hvb, heq⟩ := mem_addToLabel.mp hxb
        have := insertKV_inj a b f va vb (hks a (List.mem_cons_self a M))
          (hks b (List.mem_cons_of_mem a hb)) heq
        exact hnd.1 (this.1 ▸ hb)
    exact key (m :: ms) hL hf

/-- Auxiliary size law for the fold, from a non-empty starting slice. -/
theorem length_foldl_addDimension (dims : List (String × List String)) :
    ∀ L : List LMap, L ≠ [] → (∀ d ∈ dims, d.2 ≠ []) →
    (dims.foldl (fun ls d => addDimension ls d.1 d.2) L).length
      = L.length * (dims.map (fun d => d.2.length)).prod := by
  induction dims with
  | nil => intro L _ _; simp
  | cons d dims ih =>
    intro L hL hdom
    have hd : d.2 ≠ [] := hdom d (List.mem_cons_self d dims)
    have hrest : ∀ e ∈ dims, e.2 ≠ [] := fun e he => hdom e (List.mem_cons_of_mem d he)
    cases L with
    | nil => exact absurd rfl hL
    | cons m ms =>
      simp only [List.foldl_cons]
      rw [ih (addDimension (m :: ms) d.1 d.2) (addDimension_ne_nil hd) hrest,
        length_addDimension_cons]
      simp [Nat.mul_assoc]

/-- Auxiliary distinctness law for the fold: distinct starting maps, fresh
pairwise-distinct dimension names and duplicate-free domains keep the expanded
slice duplicate-free. -/
theorem nodup_foldl_addDimension (dims : List (String × List String)) :
    ∀ L : List LMap, L.Nodup → (∀ d ∈ dims, d.2.Nodup) → (dims.map Prod.fst).Nodup →
    (∀ m ∈ L, ∀ d ∈ dims, d.1 ∉ keysOf m) →
    (dims.foldl (fun ls d => addDimension ls d.1 d.2) L).Nodup := by
  induction dims with
  | nil => intro L hL _ _ _; simpa using hL
  | cons d dims ih =>
    intro L hL hdom hnames hkeys
    simp only [List.map_cons, List.nodup_cons] at hnames
    simp only [List.foldl_cons]
    refine ih (addDimension L d.1 d.2)
      (nodup_addDimension hL (hdom d (List.mem_cons_self d dims))
        (fun m hm => hkeys m hm d (List.mem_cons_self d dims)))
      (fun e he => hdom e (List.mem_cons_of_mem d he)) hnames.2 ?_
    intro m' hm' e he
    obtain ⟨b, v, _, rfl, hb⟩ := mem_addDimension hm'
    have hne : e.1 ≠ d.1 := by
      intro h
      exact hnames.1 (h ▸ List.mem_map_of_mem Prod.fst he)
    rw [mem_keysOf_insertKV]
    rintro (h | h)
    · exact hne h
    · rcases hb with rfl | hb
      · simp [keysOf] at h
      · exact hkeys b hb e (List.mem_cons_of_mem d he) h

theorem buckets_withLabels (hv : HistogramVec) (l : LMap) :
    (hv.withLabels l).buckets = hv.buckets := by
  unfold HistogramVec.withLabels
  split <;> rfl

theorem buckets_touchAllH (hv : HistogramVec) (ls : List LMap) :
    (touchAllH hv ls).buckets = hv.buckets := by
  induction ls generalizing hv with
  | nil => rfl
  | cons l ls ih =>
    show (touchAllH (hv.withLabels l) ls).buckets = hv.buckets
    rw [ih, buckets_withLabels]

theorem mem_series_withLabels_self (cv : CounterVec) (l : LMap) :
    l ∈ (cv.withLabels l).series := by
  unfold CounterVec.withLabels
  split
  · assumption
  · simp

theorem mem_series_withLabels_mono (cv : CounterVec) (l a : LMap) (h : a ∈ cv.series) :
    a ∈ (cv.withLabels l).series := by
  unfold CounterVec.withLabels
  split
  · exact h
  · simp [h]

theorem mem_series_touchAllC_mono (ls : List LMap) (cv : CounterVec) (a : LMap)
    (h : a ∈ cv.series) : a ∈ (touchAllC cv ls).series := by
  induction ls generalizing cv with
  | nil => exact h
  | cons l ls ih =>
    show a ∈ (touchAllC (cv.withLabels l) ls).series
    exact ih _ (mem_series_withLabels_mono cv l a h)

theorem mem_series_touchAllC (ls : List LMap) (cv : CounterVec) (l : LMap)
    (h : l ∈ ls) : l ∈ (touchAllC cv ls).series := by
  induction ls generalizing cv with
  | nil => cases h
  | cons x xs ih =>
    show l ∈ (touchAllC (cv.withLabels x) xs).series
    rcases List.mem_cons.mp h with rfl | h'
    · exact mem_series_touchAllC_mono xs _ l (mem_series_withLabels_self cv l)
    · exact ih _ h'

theorem series_incAt_of_mem (cv : CounterVec) (l : LMap) (h : l ∈ cv.series) :
    (cv.incAt l).series = cv.series := by
  show (cv.withLabels l).series = cv.series
  unfold CounterVec.withLabels
  rw [if_pos h]

theorem series_addAt_of_mem (cv : CounterVec) (l : LMap) (x : ℚ) (h : l ∈ cv.series) :
    (cv.addAt l x).series = cv.series := by
  show (cv.withLabels l).series = cv.series
  unfold CounterVec.withLabels
  rw [if_pos h]

theorem memH_series_withLabels_self (hv : HistogramVec) (l : LMap) :
    l ∈ (hv.withLabels l).series := by
  unfold HistogramVec.withLabels
  split
  · assumption
  · simp

theorem memH_series_withLabels_mono (hv : HistogramVec) (l a : LMap) (h : a ∈ hv.series) :
    a ∈ (hv.withLabels l).series := by
  unfold HistogramVec.withLabels
  split
  · exact h
  · simp [h]

theorem mem_series_touchAllH_mono (ls : List LMap) (hv : HistogramVec) (a : LMap)
    (h : a ∈ hv.series) : a ∈ (touchAllH hv ls).series := by
  induction ls generalizing hv with
  | nil => exact h
  | cons l ls ih =>
    show a ∈ (touchAllH (hv.withLabels l) ls).series
    exact ih _ (memH_series_withLabels_mono hv l a h)

theorem mem_series_touchAllH (ls : List LMap) (hv : HistogramVec) (l : LMap)
    (h : l ∈ ls) : l ∈ (touchAllH hv ls).series := by
  induction ls generalizing hv with
  | nil => cases h
  | cons x xs ih =>
    show l ∈ (touchAllH (hv.withLabels x) xs).series
    rcases List.mem_cons.mp h with rfl | h'
    · exact mem_series_touchAllH_mono xs _ l (memH_series_withLabels_self hv l)
    · exact ih _ h'

theorem series_observeAt_of_mem (hv : HistogramVec) (l : LMap) (x : ℚ) (h : l ∈ hv.series) :
    (hv.observeAt l x).series = hv.series := by
  show (hv.withLabels l).series = hv.series
  unfold HistogramVec.withLabels
  rw [if_pos h]

theorem linearBuckets_eq_map (width : ℚ) (n : Nat) : ∀ start : ℚ,
    linearBuckets start width n
      = (List.range n).map (fun i : ℕ => start + (i : ℚ) * width) := by
  induction n with
  | zero => intro start; rfl
  | succ n ih =>
    intro start
    rw [linearBuckets, ih (start + width), List.range_succ_eq_map, List.map_cons,
      List.map_map]
    congr 1
    · push_cast
      ring
    · apply List.map_congr_left
      intro i _
      simp only [Function.comp_apply]
      push_cast
      ring

theorem resolveLabels_mem_standard (cat : DomainCatalog) (lbl : Labels)
    (h1 : lbl.Source ∈ cat.demandTypes) (h2 : lbl.RType ∈ cat.requestTypes)
    (h3 : lbl.Browser ∈ cat.browserTypes) (h4 : lbl.CookieFlag ∈ cat.cookieTypes)
    (h5 : lbl.RequestStatus ∈ cat.requestStatuses) :
    resolveLabels lbl ∈ standardLabelsList cat := by
  have e1 := mem_addDimension_nil_of (f := demandSourceLabel) h1
  have e2 := mem_addDimension_of (f := requestTypeLabel) e1 h2
  have e3 := mem_addDimension_of (f := browserLabel) e2 h3
  have e4 := mem_addDimension_of (f := cookieLabel) e3 h4
  have e5 := mem_addDimension_of (f := responseStatusLabel) e4 h5
  exact e5

theorem resolveAdapterLabels_mem (cat : DomainCatalog) (al : AdapterLabels)
    (h1 : al.Source ∈ cat.demandTypes) (h2 : al.RType ∈ cat.requestTypes)
    (h3 : al.Browser ∈ cat.browserTypes) (h4 : al.CookieFlag ∈ cat.cookieTypes)
    (h5 : al.Adapter ∈ cat.adapters) (h6 : al.AdapterBids ∈ cat.adapterBids) :
    resolveAdapterLabels al ∈ adapterStatusLabels cat := by
  have e1 := mem_addDimension_nil_of (f := demandSourceLabel) h1
  have e2 := mem_addDimension_of (f := requestTypeLabel) e1 h2
  have e3 := mem_addDimension_of (f := browserLabel) e2 h3
  have e4 := mem_addDimension_of (f := cookieLabel) e3 h4
  have e5 := mem_addDimension_of (f := adapterLabel) e4 h5
  have e6 := mem_addDimension_of (f := adapterBidLabel) e5 h6
  have key : resolveAdapterLabels al =
      insertKV (insertKV (insertKV (insertKV (insertKV (insertKV []
        demandSourceLabel al.Source)
        requestTypeLabel al.RType)
        browserLabel al.Browser)
        cookieLabel al.CookieFlag)
        adapterLabel al.Adapter)
        adapterBidLabel al.AdapterBids := rfl
  rw [key]
  exact e6

theorem resolveImpLabels_mem (il : ImpLabels) : resolveImpLabels il ∈ impTypeLabelsList := by
  obtain ⟨b, v, a, n⟩ := il
  cases b <;> cases v <;> cases a <;> cases n <;> decide

theorem resolveAdapterErrorLabels_mem (cat : DomainCatalog) (al : AdapterLabels) (k : String)
    (h1 : al.Source ∈ cat.demandTypes) (h2 : al.RType ∈ cat.requestTypes)
    (h3 : al.Browser ∈ cat.browserTypes) (h4 : al.CookieFlag ∈ cat.cookieTypes)
    (h5 : al.Adapter ∈ cat.adapters) (hk : k ∈ cat.adapterErrors) :
    resolveAdapterErrorLabels al k ∈ adapterErrorLabelsList cat := by
  have e1 := mem_addDimension_nil_of (f := demandSourceLabel) h1
  have e2 := mem_addDimension_of (f := requestTypeLabel) e1 h2
  have e3 := mem_addDimension_of (f := browserLabel) e2 h3
  have e4 := mem_addDimension_of (f := cookieLabel) e3 h4
  have e5 := mem_addDimension_of (f := adapterLabel) e4 h5
  have e6 := mem_addDimension_of (f := adapterErrLabel) e5 hk
  have key : resolveAdapterErrorLabels al k =
      insertKV (insertKV (insertKV (insertKV (insertKV (insertKV []
        demandSourceLabel al.Source)
        requestTypeLabel al.RType)
        browserLabel al.Browser)
        cookieLabel al.CookieFlag)
        adapterLabel al.Adapter)
        adapterErrLabel k := rfl
  rw [key]
  exact e6

theorem resolveBidLabels_mem (cat : DomainCatalog) (al : AdapterLabels)
    (bt : String) (hasAdm : Bool)
    (h1 : al.Source ∈ cat.demandTypes) (h2 : al.RType ∈ cat.requestTypes)
    (h3 : al.Browser ∈ cat.browserTypes) (h4 : al.CookieFlag ∈ cat.cookieTypes)
    (h5 : al.Adapter ∈ cat.adapters) (h6 : al.AdapterBids ∈ cat.adapterBids)
    (hbt : bt ∈ cat.bidTypes) :
    resolveBidLabels al bt hasAdm ∈ bidLabelsList cat := by
  have e1 := mem_addDimension_nil_of (f := demandSourceLabel) h1
  have e2 := mem_addDimension_of (f := requestTypeLabel) e1 h2
  have e3 := mem_addDimension_of (f := browserLabel) e2 h3
  have e4 := mem_addDimension_of (f := cookieLabel) e3 h4
  have e5 := mem_addDimension_of (f := adapterLabel) e4 h5
  have e6 := mem_addDimension_of (f := adapterBidLabel) e5 h6
  have e7 := mem_addDimension_of (f := bidTypeLabel) e6 hbt
  have e8 := @mem_addDimension_of _ _ markupTypeLabel
    (if hasAdm then "adm" else "unknown") ["unknown", "adm"] e7
    (by cases hasAdm <;> simp)
  have key : resolveBidLabels al bt hasAdm =
      insertKV (insertKV (insertKV (insertKV (insertKV (insertKV (insertKV (insertKV []
        demandSourceLabel al.Source)
        requestTypeLabel al.RType)
        browserLabel al.Browser)
        cookieLabel al.CookieFlag)
        adapterLabel al.Adapter)
        adapterBidLabel al.AdapterBids)
        bidTypeLabel bt)
        markupTypeLabel (if hasAdm then "adm" else "unknown") := by
    cases hasAdm <;> rfl
  rw [key]
  exact e8

/-- Series preservation through `RecordAdapterRequest`: both the adapter
counter and every per-error-kind increment hit pre-existing series. -/
theorem recordAdapterRequest_series (m : Metrics) (al : AdapterLabels)
    (hreq : resolveAdapterLabels al ∈ m.adaptRequests.series)
    (herr : ∀ k ∈ al.AdapterErrors, resolveAdapterErrorLabels al k ∈ m.adaptErrors.series) :
    (m.recordAdapterRequest al).adaptRequests.series = m.adaptRequests.series ∧
    (m.recordAdapterRequest al).adaptErrors.series = m.adaptErrors.series := by
  have main : ∀ (ks : List String) (mm : Metrics),
      (∀ k ∈ ks, resolveAdapterErrorLabels al k ∈ mm.adaptErrors.series) →
      ((ks.foldl (fun mm k =>
          { mm with adaptErrors :=
              mm.adaptErrors.incAt (resolveAdapterErrorLabels al k) }) mm).adaptErrors.series
         = mm.adaptErrors.series ∧
       (ks.foldl (fun mm k =>
          { mm with adaptErrors :=
              mm.adaptErrors.incAt (resolveAdapterErrorLabels al k) }) mm).adaptRequests
         = mm.adaptRequests) := by
    intro ks
    induction ks with
    | nil => intro mm _; exact ⟨rfl, rfl⟩
    | cons k ks ih =>
      intro mm hmm
      have hk := hmm k (List.mem_cons_self k ks)
      have hser : (mm.adaptErrors.incAt (resolveAdapterErrorLabels al k)).series
          = mm.adaptErrors.series := series_incAt_of_mem _ _ hk
      have hstep := ih
        { mm with adaptErrors := mm.adaptErrors.incAt (resolveAdapterErrorLabels al k) }
        (by intro k' hk'
            show resolveAdapterErrorLabels al k'
              ∈ (mm.adaptErrors.incAt (resolveAdapterErrorLabels al k)).series
            rw [hser]
            exact hmm k' (List.mem_cons_of_mem k hk'))
      refine ⟨?_, ?_⟩
      · rw [List.foldl_cons, hstep.1]
        exact hser
      · rw [List.foldl_cons, hstep.2]
  have h := main al.AdapterErrors
    { m with adaptRequests := m.adaptRequests.incAt (resolveAdapterLabels al) }
    (fun k hk => herr k hk)
  constructor
  · show ((al.AdapterErrors.foldl (fun (mm : Metrics) (k : String) =>
        { mm with adaptErrors := mm.adaptErrors.incAt (resolveAdapterErrorLabels al k) })
        { m with adaptRequests :=
            m.adaptRequests.incAt (resolveAdapterLabels al) }).adaptRequests).series
      = m.adaptRequests.series
    rw [h.2]
    exact series_incAt_of_mem _ _ hreq
  · exact h.1

/-- C1 counterexample: with two fan-out backends where the first backend's
update panics, the loop body of the `MultiMetricsEngine.Record*` methods
leaves the second backend without the event (its state is unchanged) and
lets the panic escape to the caller, so the recorded outcome differs from
the one the claim predicts (second backend updated, no panic escaping). -/
theorem multiEngineRecord_counterexample :
    multiEngineRecord [((fun _ => Except.error "panic"), (0 : Nat)),
                       ((fun n => Except.ok (n + 1)), 0)] = ([0, 0], some "panic") ∧
    (([0, 0], some "panic") : List Nat × Option String) ≠ ([0, 1], none) :=
  ⟨rfl, by simp⟩

/-- C1 (amended): every recording call on the fan-out engine is forwarded to
each backend synchronously in the fixed configuration order, and when no
backend's update panics every backend receives the event; the loop installs
no recover, however, so a panic inside one backend's update stops forwarding
to the remaining backends and propagates to the original caller. -/
theorem multiEngineRecord_spec {σ ε : Type} (engines : List ((σ → Except ε σ) × σ))
    (updated : List σ)
    (hok : List.Forall₂ (fun e s' => e.1 e.2 = Except.ok s') engines updated) :
    multiEngineRecord engines = (updated, none) ∧
    ∀ (f : σ → Except ε σ) (s : σ) (rest : List ((σ → Except ε σ) × σ)) (e : ε),
      f s = Except.error e →
      multiEngineRecord ((f, s) :: rest) = (s :: rest.map Prod.snd, some e) := by
  constructor
  · induction hok with
    | nil => rfl
    | @cons e s' l₁ l₂ h htail ih =>
      obtain ⟨f, s⟩ := e
      have hfs : f s = Except.ok s' := h
      simp [multiEngineRecord, hfs, ih]
  · intro f s rest e he
    simp [multiEngineRecord, he]

/-- C1 witness: the amended theorem applied to a concrete one-backend list
whose update succeeds, and to a concrete panicking head backend. -/
theorem multiEngineRecord_spec_witness :
    multiEngineRecord [((fun n => Except.ok (n + 1) : Nat → Except String Nat), 0)]
      = ([1], none) ∧
    multiEngineRecord [((fun _ => (Except.error "p" : Except String Nat)), (7 : Nat))]
      = ([7], some "p") := by
  have h := multiEngineRecord_spec
    [((fun n => (Except.ok (n + 1) : Except String Nat)), 0)] [1]
    (List.Forall₂.cons rfl List.Forall₂.nil)
  exact ⟨h.1, h.2 _ 7 [] "p" rfl⟩

/-- C3: engine construction is a one-time choice by backend count: the Influx
backend is active iff its host is non-empty, the Prometheus backend iff its
port is non-zero; zero active backends give the no-op dummy engine, exactly
one gives that backend directly with no wrapper, and two give the fan-out
engine holding the backends in configuration order (Influx first). -/
theorem newMetricsEngine_choice (cfg : EngineConfiguration) :
    newMetricsEngine cfg =
      (if cfg.influxdbHost = "" then
        (if cfg.prometheusPort = 0 then EngineChoice.dummyEngine
         else EngineChoice.singleEngine BackendKind.prometheusBackend)
       else
        (if cfg.prometheusPort = 0 then EngineChoice.singleEngine BackendKind.goMetrics
         else EngineChoice.multiEngine
           [BackendKind.goMetrics, BackendKind.prometheusBackend])) := by
  by_cases h1 : cfg.influxdbHost = "" <;> by_cases h2 : cfg.prometheusPort = 0 <;>
    simp [newMetricsEngine, h1, h2]

/-- C4: the latency histogram families (`request_time_seconds` and
`adapter_time_seconds`) carry exactly the 26 contractual bucket edges, and
the price family (`adapter_prices`) exactly the 200 linear edges
0.1, 0.2, ..., 20.0, in order. -/
theorem bucket_edges_exact (cfg : PrometheusConfig) (cat : DomainCatalog) :
    (newMetrics cfg cat).reqTimer.buckets =
      [0.05, 0.10, 0.15, 0.20, 0.25, 0.30, 0.35, 0.40, 0.45, 0.50,
       0.55, 0.60, 0.65, 0.70, 0.75, 0.80, 0.85, 0.90, 0.95, 1.00,
       1.5, 2.0, 3.0, 5.0, 20.0, 50.0] ∧
    (newMetrics cfg cat).adaptTimer.buckets = (newMetrics cfg cat).reqTimer.buckets ∧
    (newMetrics cfg cat).adaptPrices.buckets =
      (List.range 200).map (fun i : ℕ => (0.1 : ℚ) + (i : ℚ) * 0.1) ∧
    (newMetrics cfg cat).adaptPrices.buckets.length = 200 ∧
    (newMetrics cfg cat).adaptPrices.buckets.head? = some 0.1 ∧
    (newMetrics cfg cat).adaptPrices.buckets.getLast? = some 20 := by
  have hreq : (newMetrics cfg cat).reqTimer.buckets = timerBuckets := by
    show (touchAllH (emptyHistogramVec timerBuckets) (standardLabelsList cat)).buckets
      = timerBuckets
    rw [buckets_touchAllH]
    rfl
  have hadt : (newMetrics cfg cat).adaptTimer.buckets = timerBuckets := by
    show (touchAllH (emptyHistogramVec timerBuckets) (adapterStatusLabels cat)).buckets
      = timerBuckets
    rw [buckets_touchAllH]
    rfl
  have hpr : (newMetrics cfg cat).adaptPrices.buckets = priceBuckets := by
    show (touchAllH (emptyHistogramVec priceBuckets) (adapterStatusLabels cat)).buckets
      = priceBuckets
    rw [buckets_touchAllH]
    rfl
  have hprm : priceBuckets = (List.range 200).map (fun i : ℕ => (0.1 : ℚ) + (i : ℚ) * 0.1) :=
    linearBuckets_eq_map 0.1 200 0.1
  refine ⟨?_, by rw [hadt, hreq], ?_, ?_, ?_, ?_⟩
  · rw [hreq]
    norm_num [timerBuckets, linearBuckets]
  · rw [hpr, hprm]
  · rw [hpr, hprm]
    simp
  · rw [hpr, hprm, List.range_succ_eq_map, List.map_cons]
    simp only [List.head?_cons]
    norm_num
  · rw [hpr, hprm, List.range_succ, List.map_append]
    simp only [List.map_cons, List.map_nil, List.getLast?_concat]
    norm_num

/-- C6: derived-label determinism: the markup-type label resolves to the
fixed token `adm` whenever the bid payload is present and to `unknown`
whenever it is absent; each impression flag projects independently to `yes`
or `no` on its own label; and with all four flags set every impression label
reads `yes`. -/
theorem derived_label_determinism (al : AdapterLabels) (bt : String) (il : ImpLabels) :
    findKV (resolveBidLabels al bt true) markupTypeLabel = some "adm" ∧
    findKV (resolveBidLabels al bt false) markupTypeLabel = some "unknown" ∧
    findKV (resolveImpLabels il) bannerLabel
      = some (if il.BannerImps then "yes" else "no") ∧
    findKV (resolveImpLabels il) videoLabel
      = some (if il.VideoImps then "yes" else "no") ∧
    findKV (resolveImpLabels il) audioLabel
      = some (if il.AudioImps then "yes" else "no") ∧
    findKV (resolveImpLabels il) nativeLabel
      = some (if il.NativeImps then "yes" else "no") ∧
    resolveImpLabels ⟨true, true, true, true⟩ =
      [("audio", "yes"), ("banner", "yes"), ("native", "yes"), ("video", "yes")] := by
  obtain ⟨b, v, a, n⟩ := il
  cases b <;> cases v <;> cases a <;> cases n <;>
    exact ⟨rfl, rfl, rfl, rfl, rfl, rfl, by decide⟩

/-- C7 counterexample: at the empty dimension list, folding `addDimension`
from the code's actual starting value (the empty slice of labels) produces
the empty set of assignments, not a singleton set holding the empty
assignment. -/
theorem cartesianDims_nil_counterexample :
    cartesianDims [] = ([] : List LMap) ∧ (cartesianDims []).length ≠ 1 :=
  ⟨rfl, by decide⟩

/-- C7 (amended): the enumeration starts from the empty slice, so an empty
dimension list yields no assignments; the singleton-empty-assignment start
the spec describes is realized inside `addDimension` at the first dimension,
whose empty-slice case expands the empty assignment, so any single-dimension
family already enumerates from the empty assignment. -/
theorem addDimension_empty_slice (f : String) (vs : List String) :
    cartesianDims [] = ([] : List LMap) ∧
    addDimension [] f vs = addToLabel [] f vs ∧
    cartesianDims [(f, vs)] = addToLabel [] f vs :=
  ⟨rfl, rfl, rfl⟩

/-- C8: prefix-reuse equivalence: continuing the fold from an
already-expanded prefix product yields exactly the assignment set obtained
by enumerating the full dimension list from scratch; the saved
`adapterLabels` and `errorLabels` slices of `initializeTimeSeries` are
instances of this; and `addToLabel` extends a (deep-)copy, the input
assignment itself being left untouched (`copyLabel` is the identity on the
represented value). -/
theorem prefix_reuse_equivalence (cat : DomainCatalog)
    (pre suf : List (String × List String)) :
    cartesianDims (pre ++ suf)
      = suf.foldl (fun ls d => addDimension ls d.1 d.2) (cartesianDims pre) ∧
    standardLabelsList cat = cartesianDims
      [(demandSourceLabel, cat.demandTypes), (requestTypeLabel, cat.requestTypes),
       (browserLabel, cat.browserTypes), (cookieLabel, cat.cookieTypes),
       (responseStatusLabel, cat.requestStatuses)] ∧
    adapterStatusLabels cat = cartesianDims
      [(demandSourceLabel, cat.demandTypes), (requestTypeLabel, cat.requestTypes),
       (browserLabel, cat.browserTypes), (cookieLabel, cat.cookieTypes),
       (adapterLabel, cat.adapters), (adapterBidLabel, cat.adapterBids)] ∧
    adapterErrorLabelsList cat = cartesianDims
      [(demandSourceLabel, cat.demandTypes), (requestTypeLabel, cat.requestTypes),
       (browserLabel, cat.browserTypes), (cookieLabel, cat.cookieTypes),
       (adapterLabel, cat.adapters), (adapterErrLabel, cat.adapterErrors)] ∧
    (∀ l : LMap, copyLabel l = l) := by
  refine ⟨?_, rfl, rfl, rfl, fun _ => rfl⟩
  simp [cartesianDims, List.foldl_append]

/-- C9: evaluation of the sampled code at the claim's failing input: the
Prometheus `NewMetrics` takes no disabled-family set, and it constructs and
registers every declared family with the namespace and subsystem prefix
applied, so a family named in a disabled set (for example `imps_requested`)
is registered all the same. -/
theorem newMetrics_registers_all (cfg : PrometheusConfig) (cat : DomainCatalog) :
    (newMetrics cfg cat).registryNames =
      [buildFQName cfg.Namespace cfg.Subsystem "active_connections",
       buildFQName cfg.Namespace cfg.Subsystem "active_connections_total",
       buildFQName cfg.Namespace cfg.Subsystem "imps_requested",
       buildFQName cfg.Namespace cfg.Subsystem "legacy_imps_requested",
       buildFQName cfg.Namespace cfg.Subsystem "requests_total",
       buildFQName cfg.Namespace cfg.Subsystem "request_time_seconds",
       buildFQName cfg.Namespace cfg.Subsystem "adapter_requests_total",
       buildFQName cfg.Namespace cfg.Subsystem "adapter_panics_total",
       buildFQName cfg.Namespace cfg.Subsystem "adapter_time_seconds",
       buildFQName cfg.Namespace cfg.Subsystem "adapter_bids_received_total",
       buildFQName cfg.Namespace cfg.Subsystem "stored_request_cache_performance",
       buildFQName cfg.Namespace cfg.Subsystem "stored_imp_cache_performance",
       buildFQName cfg.Namespace cfg.Subsystem "adapter_prices",
       buildFQName cfg.Namespace cfg.Subsystem "adapter_errors_total",
       buildFQName cfg.Namespace cfg.Subsystem "cookie_sync_requests_total",
       buildFQName cfg.Namespace cfg.Subsystem "cookie_sync_returns",
       buildFQName cfg.Namespace cfg.Subsystem "setuid_calls"] ∧
    buildFQName cfg.Namespace cfg.Subsystem "imps_requested"
      ∈ (newMetrics cfg cat).registryNames := by
  refine ⟨rfl, ?_⟩
  show _ ∈ (newMetrics cfg cat).registryNames
  exact List.mem_cons_of_mem _ (List.mem_cons_of_mem _ (List.mem_cons_self _ _))

/-- C10: RecordCookieSync on the Prometheus backend is independent of its
labels argument: any two label contexts yield the identical resulting state,
in which exactly the dimension-less cookie-sync counter has grown by one and
every other field of the backend is unchanged. -/
theorem recordCookieSync_noninterference (m : Metrics) (l₁ l₂ : Labels) :
    m.recordCookieSync l₁ = m.recordCookieSync l₂ ∧
    (m.recordCookieSync l₁).cookieSync = m.cookieSync + 1 ∧
    (m.recordCookieSync l₁).registryNames = m.registryNames ∧
    (m.recordCookieSync l₁).connCounter = m.connCounter ∧
    (m.recordCookieSync l₁).connError = m.connError ∧
    (m.recordCookieSync l₁).imps = m.imps ∧
    (m.recordCookieSync l₁).legacyImps = m.legacyImps ∧
    (m.recordCookieSync l₁).requests = m.requests ∧
    (m.recordCookieSync l₁).reqTimer = m.reqTimer ∧
    (m.recordCookieSync l₁).adaptRequests = m.adaptRequests ∧
    (m.recordCookieSync l₁).adaptTimer = m.adaptTimer ∧
    (m.recordCookieSync l₁).adaptBids = m.adaptBids ∧
    (m.recordCookieSync l₁).adaptPrices = m.adaptPrices ∧
    (m.recordCookieSync l₁).adaptErrors = m.adaptErrors ∧
    (m.recordCookieSync l₁).adaptPanics = m.adaptPanics ∧
    (m.recordCookieSync l₁).adaptCookieSync = m.adaptCookieSync ∧
    (m.recordCookieSync l₁).userID = m.userID ∧
    (m.recordCookieSync l₁).storedReqCacheResult = m.storedReqCacheResult ∧
    (m.recordCookieSync l₁).storedImpCacheResult = m.storedImpCacheResult :=
  ⟨rfl, rfl, rfl, rfl, rfl, rfl, rfl, rfl, rfl, rfl, rfl, rfl, rfl, rfl, rfl,
   rfl, rfl, rfl, rfl⟩

/-- C2 counterexample: the legacy-imps family is never pre-materialized by
`initializeTimeSeries`: on a freshly built registry (here with a concrete
singleton-domain catalog) its series set is empty, and a single
`RecordLegacyImps` call with an in-domain `Labels` context creates a new
series, growing the series set — refuting the claim's every-family
invariance. -/
theorem recordLegacyImps_new_series_counterexample :
    (newMetrics ⟨0, "", ""⟩ catWitness).legacyImps.series = [] ∧
    ((newMetrics ⟨0, "", ""⟩ catWitness).recordLegacyImps lblWitness 1).legacyImps.series
      = [resolveLabels lblWitness] ∧
    ((newMetrics ⟨0, "", ""⟩ catWitness).recordLegacyImps
        lblWitness 1).legacyImps.series.length
      ≠ (newMetrics ⟨0, "", ""⟩ catWitness).legacyImps.series.length := by
  refine ⟨rfl, by decide, by decide⟩

/-- C2 (amended): cardinality closure for the pre-materialized families: for
every family that `initializeTimeSeries` pre-creates and every recording
context whose fields lie in their declared closed domains, the label
assignment produced at recording time by the resolve functions is a member
of the pre-created set, and every recording operation targeting those
families leaves the family's series set unchanged — this covers
RecordRequest, RecordRequestTime, RecordImps, RecordAdapterPanic,
RecordAdapterRequest (both the adapter counter and the per-error-kind
increments), RecordAdapterBidReceived, RecordAdapterPrice,
RecordAdapterTime, RecordConnectionAccept, RecordConnectionClose,
RecordAdapterCookieSync, RecordStoredReqCacheResult and
RecordStoredImpCacheResult. The legacy-imps family is not pre-created
(see the counterexample), so it is excluded from the invariant. -/
theorem cardinality_closure (cfg : PrometheusConfig) (cat : DomainCatalog)
    (lbl : Labels) (al : AdapterLabels) (il : ImpLabels)
    (bt ca cr : String) (t cpm : ℚ) (inc : Int)
    (hasAdm gdprBlocked success : Bool)
    (h1 : lbl.Source ∈ cat.demandTypes) (h2 : lbl.RType ∈ cat.requestTypes)
    (h3 : lbl.Browser ∈ cat.browserTypes) (h4 : lbl.CookieFlag ∈ cat.cookieTypes)
    (h5 : lbl.RequestStatus ∈ cat.requestStatuses)
    (a1 : al.Source ∈ cat.demandTypes) (a2 : al.RType ∈ cat.requestTypes)
    (a3 : al.Browser ∈ cat.browserTypes) (a4 : al.CookieFlag ∈ cat.cookieTypes)
    (a5 : al.Adapter ∈ cat.adapters) (a6 : al.AdapterBids ∈ cat.adapterBids)
    (herr : ∀ k ∈ al.AdapterErrors, k ∈ cat.adapterErrors)
    (hbt : bt ∈ cat.bidTypes) (hca : ca ∈ cat.adapters)
    (hcr : cr ∈ cat.cacheResults) :
    resolveLabels lbl ∈ (newMetrics cfg cat).requests.series ∧
    ((newMetrics cfg cat).recordRequest lbl).requests.series
      = (newMetrics cfg cat).requests.series ∧
    ((newMetrics cfg cat).recordRequestTime lbl t).reqTimer.series
      = (newMetrics cfg cat).reqTimer.series ∧
    resolveImpLabels il ∈ (newMetrics cfg cat).imps.series ∧
    ((newMetrics cfg cat).recordImps il).imps.series
      = (newMetrics cfg cat).imps.series ∧
    resolveAdapterLabels al ∈ (newMetrics cfg cat).adaptRequests.series ∧
    ((newMetrics cfg cat).recordAdapterPanic al).adaptPanics.series
      = (newMetrics cfg cat).adaptPanics.series ∧
    ((newMetrics cfg cat).recordAdapterRequest al).adaptRequests.series
      = (newMetrics cfg cat).adaptRequests.series ∧
    ((newMetrics cfg cat).recordAdapterRequest al).adaptErrors.series
      = (newMetrics cfg cat).adaptErrors.series ∧
    ((newMetrics cfg cat).recordAdapterBidReceived al bt hasAdm).adaptBids.series
      = (newMetrics cfg cat).adaptBids.series ∧
    ((newMetrics cfg cat).recordAdapterPrice al cpm).adaptPrices.series
      = (newMetrics cfg cat).adaptPrices.series ∧
    ((newMetrics cfg cat).recordAdapterTime al t).adaptTimer.series
      = (newMetrics cfg cat).adaptTimer.series ∧
    ((newMetrics cfg cat).recordConnectionAccept success).connError.series
      = (newMetrics cfg cat).connError.series ∧
    ((newMetrics cfg cat).recordConnectionClose success).connError.series
      = (newMetrics cfg cat).connError.series ∧
    ((newMetrics cfg cat).recordAdapterCookieSync ca gdprBlocked).adaptCookieSync.series
      = (newMetrics cfg cat).adaptCookieSync.series ∧
    ((newMetrics cfg cat).recordStoredReqCacheResult cr inc).storedReqCacheResult.series
      = (newMetrics cfg cat).storedReqCacheResult.series ∧
    ((newMetrics cfg cat).recordStoredImpCacheResult cr inc).storedImpCacheResult.series
      = (newMetrics cfg cat).storedImpCacheResult.series := by
  have hstd := resolveLabels_mem_standard cat lbl h1 h2 h3 h4 h5
  have hadp := resolveAdapterLabels_mem cat al a1 a2 a3 a4 a5 a6
  have himp := resolveImpLabels_mem il
  have m1 : resolveLabels lbl ∈ (newMetrics cfg cat).requests.series :=
    mem_series_touchAllC _ _ _ hstd
  have m2 : resolveLabels lbl ∈ (newMetrics cfg cat).reqTimer.series :=
    mem_series_touchAllH _ _ _ hstd
  have m3 : resolveImpLabels il ∈ (newMetrics cfg cat).imps.series :=
    mem_series_touchAllC _ _ _ himp
  have m4r : resolveAdapterLabels al ∈ (newMetrics cfg cat).adaptRequests.series :=
    mem_series_touchAllC _ _ _ hadp
  have m4p : resolveAdapterLabels al ∈ (newMetrics cfg cat).adaptPanics.series :=
    mem_series_touchAllC _ _ _ hadp
  have m4t : resolveAdapterLabels al ∈ (newMetrics cfg cat).adaptTimer.series :=
    mem_series_touchAllH _ _ _ hadp
  have m4pr : resolveAdapterLabels al ∈ (newMetrics cfg cat).adaptPrices.series :=
    mem_series_touchAllH _ _ _ hadp
  have hAR := recordAdapterRequest_series (newMetrics cfg cat) al m4r
    (fun k hk => mem_series_touchAllC _ _ _
      (resolveAdapterErrorLabels_mem cat al k a1 a2 a3 a4 a5 (herr k hk)))
  have mbid : resolveBidLabels al bt hasAdm ∈ (newMetrics cfg cat).adaptBids.series :=
    mem_series_touchAllC _ _ _
      (resolveBidLabels_mem cat al bt hasAdm a1 a2 a3 a4 a5 a6 hbt)
  have mcr : insertKV [] cacheResultLabel cr
      ∈ (newMetrics cfg cat).storedReqCacheResult.series :=
    mem_series_touchAllC _ _ _ (mem_addDimension_nil_of hcr)
  have mci : insertKV [] cacheResultLabel cr
      ∈ (newMetrics cfg cat).storedImpCacheResult.series :=
    mem_series_touchAllC _ _ _ (mem_addDimension_nil_of hcr)
  refine ⟨m1, series_incAt_of_mem _ _ m1, series_observeAt_of_mem _ _ _ m2,
    m3, series_incAt_of_mem _ _ m3, m4r, series_incAt_of_mem _ _ m4p,
    hAR.1, hAR.2, series_incAt_of_mem _ _ mbid,
    series_observeAt_of_mem _ _ _ m4pr, series_observeAt_of_mem _ _ _ m4t,
    ?_, ?_, ?_, series_addAt_of_mem _ _ _ mcr, series_addAt_of_mem _ _ _ mci⟩
  · cases success with
    | true => rfl
    | false =>
      exact series_incAt_of_mem _ _
        (mem_series_touchAllC _ _ _ (show _ ∈ connErrorLabelsList by decide))
  · cases success with
    | true => rfl
    | false =>
      exact series_incAt_of_mem _ _
        (mem_series_touchAllC _ _ _ (show _ ∈ connErrorLabelsList by decide))
  · cases gdprBlocked with
    | true =>
      exact series_incAt_of_mem _ _ (mem_series_touchAllC _ _ _
        (mem_addDimension_of (mem_addDimension_nil_of hca) (by decide)))
    | false =>
      exact series_incAt_of_mem _ _ (mem_series_touchAllC _ _ _
        (mem_addDimension_of (mem_addDimension_nil_of hca) (by decide)))

/-- C2 witness: the amended closure theorem at a concrete singleton-domain
catalog and matching in-domain contexts. -/
theorem cardinality_closure_witness :
    ((newMetrics ⟨0, "", ""⟩ catWitness).recordRequest lblWitness).requests.series
      = (newMetrics ⟨0, "", ""⟩ catWitness).requests.series := by
  have h := cardinality_closure ⟨0, "", ""⟩ catWitness lblWitness alWitness
    ⟨false, false, false, false⟩ "banner" "bidderA" "hit" 0 0 1 true false true
    (by decide) (by decide) (by decide) (by decide) (by decide)
    (by decide) (by decide) (by decide) (by decide) (by decide) (by decide)
    (by decide) (by decide) (by decide) (by decide)
  exact h.2.1

/-- C5 counterexample: with a repeated dimension name the fold still yields
product-many entries, but they are not pairwise distinct, so the claim as
stated (over every dimension sequence whose domains are non-empty and
duplicate-free) fails. -/
theorem cartesianDims_repeated_name_counterexample :
    (cartesianDims [("f", ["a", "b"]), ("f", ["a", "b"])]).length = 4 ∧
    ¬ (cartesianDims [("f", ["a", "b"]), ("f", ["a", "b"])]).Nodup := by decide

/-- C5 (amended): for every non-empty dimension sequence with pairwise
distinct names, each dimension having a non-empty duplicate-free domain,
folding `addDimension` from the empty slice yields exactly the product of
the domain sizes many label assignments, pairwise distinct; in particular
the four two-valued impression dimensions banner/video/audio/native yield
exactly 16 distinct assignments, every one pre-created on the imps family. -/
theorem cartesian_size_law (dims : List (String × List String))
    (cfg : PrometheusConfig) (cat : DomainCatalog)
    (hne : dims ≠ []) (hnames : (dims.map Prod.fst).Nodup)
    (hdom : ∀ d ∈ dims, d.2 ≠ [] ∧ d.2.Nodup) :
    (cartesianDims dims).length = (dims.map (fun d => d.2.length)).prod ∧
    (cartesianDims dims).Nodup ∧
    (newMetrics cfg cat).imps.series = impTypeLabelsList ∧
    impTypeLabelsList.length = 16 ∧
    impTypeLabelsList.Nodup := by
  refine ⟨?_, ?_,
    by show (touchAllC emptyCounterVec impTypeLabelsList).series = impTypeLabelsList
       decide,
    by decide, by decide⟩
  · cases dims with
    | nil => exact absurd rfl hne
    | cons d rest =>
      show ((d :: rest).foldl (fun ls e => addDimension ls e.1 e.2) []).length = _
      rw [List.foldl_cons]
      have hd := hdom d (List.mem_cons_self d rest)
      have hL : addDimension [] d.1 d.2 ≠ [] := addDimension_ne_nil hd.1
      rw [length_foldl_addDimension rest _ hL
        (fun e he => (hdom e (List.mem_cons_of_mem d he)).1)]
      have hlen : (addDimension [] d.1 d.2).length = d.2.length := by
        rw [addDimension_nil, length_addToLabel]
      rw [hlen, List.map_cons, List.prod_cons]
  · exact nodup_foldl_addDimension dims [] List.nodup_nil
      (fun d hd => (hdom d hd).2) hnames (fun m hm => absurd hm (List.not_mem_nil m))

/-- C5 witness: the amended size law at the four concrete impression-type
dimensions. -/
theorem cartesian_size_law_witness :
    (cartesianDims [(bannerLabel, ["yes", "no"]), (videoLabel, ["yes", "no"]),
      (audioLabel, ["yes", "no"]), (nativeLabel, ["yes", "no"])]).length = 16 := by
  have h := cartesian_size_law
    [(bannerLabel, ["yes", "no"]), (videoLabel, ["yes", "no"]),
     (audioLabel, ["yes", "no"]), (nativeLabel, ["yes", "no"])]
    ⟨0, "", ""⟩ ⟨[], [], [], [], [], [], [], [], [], []⟩
    (by decide) (by decide) (by decide)
  rw [h.1]
  decide


